import Mathlib

/-!
Shallow embedding of the rollout / aggregation subsystem of the rlgraph
repository: `RayWorker.execute_and_get_timesteps`,
`RayWorker._process_sample_if_necessary`, `RayWorker.get_workload_statistics`
(src/rlgraph/execution/ray/ray_worker.py) and
`RayExecutor.create_remote_workers` (src/yarl/execution/ray/ray_executor.py).

Modelling conventions:
- Rewards and the discount factor are rationals (`ℚ`); the source uses Python
  floats but all claims are about exact arithmetic identities.
- The environment and the agent are external collaborators; they are modelled
  as a record of pure functions (`EnvAgent`).  The environment's internal
  state is represented by the state value threaded through the loop, and
  `environment.step` is a pure transition `stepFn : S → A → S × ℚ × Bool`
  returning (next_state, reward, terminal).  The `info` component of the
  Python return value is unused by the worker and dropped.
- The agent is stateless here: `agent.get_action` is split into an action
  choice `act` and a preprocessing map `preprocess` (the source requests
  `extra_returns="preprocessed_states"`); `agent.reset` is a no-op on a pure
  function record; the per-item loss of `agent.update` is modelled as an
  elementwise function `lossFn` of one transition, matching the interface
  contract `update(batch) -> (update_result, per_item_loss)`.
- `np.zeros_like(state)` is modelled by a designated `zeroState` value and
  `ray_compress` by an opaque endomap `compress`.
- Wall-clock quantities (`time.monotonic`, `sample_times`, the throughput
  divisions) are not representable in a shallow embedding and are omitted;
  everything else in the mutable worker state is carried faithfully.
- The two Python `while` loops are written as fuel-indexed recursions that
  return `none` when the fuel runs out; the fuel supplied by the top-level
  entry point is always sufficient (each inner iteration increments
  `timesteps_executed`, which is bounded by `num_timesteps`), so `none` is
  reachable only on the `num_timesteps = 0` path, where the Python source
  itself faults (it reads the never-assigned local `terminal` at line 202,
  an `UnboundLocalError`); that fault is modelled by the `none` result.
-/

/-- External collaborators of one worker: environment transition plus agent
functions, as described in section 6 of the specification. -/
structure EnvAgent (S A : Type) where
  resetState : S
  stepFn : S → A → S × ℚ × Bool
  act : S → A
  preprocess : S → S
  lossFn : S → A → ℚ → S → Bool → ℚ
  compress : S → S
  zeroState : S

/-- Long-lived mutable worker state (`RayWorker.__init__`, lines 72-89 of
ray_worker.py), minus the wall-clock list `sample_times`. -/
structure WorkerState (S : Type) where
  episode_rewards : List ℚ
  episode_timesteps : List ℕ
  total_worker_steps : ℕ
  episodes_executed : ℕ
  sample_steps : List ℕ
  sample_env_frames : List ℕ
  last_state : S
  last_ep_timestep : ℕ
  last_ep_reward : ℚ
  last_terminal : Bool
deriving Repr

instance (S : Type) [Inhabited S] : Inhabited (WorkerState S) :=
  ⟨⟨[], [], 0, 0, [], [], default, 0, 0, false⟩⟩

/-- Worker construction: the fields set at the end of `RayWorker.__init__`
(`self.last_state = self.environment.reset()`, counters and histories
empty, `last_terminal = False`). -/
def initWorkerState {S A : Type} (ea : EnvAgent S A) : WorkerState S :=
  { episode_rewards := []
    episode_timesteps := []
    total_worker_steps := 0
    episodes_executed := 0
    sample_steps := []
    sample_env_frames := []
    last_state := ea.resetState
    last_ep_timestep := 0
    last_ep_reward := 0
    last_terminal := false }

/-- Worker configuration extracted in `RayWorker.__init__`: frameskip,
n-step adjustment, discount, and the worker_computes_weights flag. -/
structure RolloutConfig where
  worker_frameskip : ℕ
  n_step_adjustment : ℕ
  discount : ℚ
  worker_computes_weights : Bool

/-- The output mapping of `_process_sample_if_necessary` (states compressed,
plus actions / rewards / terminals / importance_weights). -/
structure SampleBatch (S A : Type) where
  states : List S
  actions : List A
  rewards : List ℚ
  terminals : List Bool
  importance_weights : List ℚ

instance (S A : Type) [Inhabited S] [Inhabited A] : Inhabited (SampleBatch S A) :=
  ⟨⟨[], [], [], [], []⟩⟩

/-- The record returned by one `execute_and_get_timesteps` call
(`EnvironmentSample`); of the metrics dict only the integer
`timesteps_executed` is representable. -/
structure EnvironmentSample (S A : Type) where
  sample_batch : SampleBatch S A
  batch_size : ℕ
  timesteps_executed : ℕ

instance (S A : Type) [Inhabited S] [Inhabited A] : Inhabited (EnvironmentSample S A) :=
  ⟨⟨default, 0, 0⟩⟩

/-- SMALL_NUMBER from the rlgraph package root (imported at the top of
ray_worker.py); its exact value is not under src/, only its use as a small
positive floor for importance weights matters. -/
def SMALL_NUMBER : ℚ := 1 / 1000000

/-- Python `del arr[new_len:]` where `new_len` may be negative (list slice
semantics: a negative start counts from the end, clamped at 0). -/
def pyDelFrom {α : Type} (l : List α) (k : ℤ) : List α :=
  l.take (if k < 0 then ((l.length : ℤ) + k).toNat else k.toNat)

/-- Inner j-loop of the n-step correction (lines 293-299 of ray_worker.py):
`for j in range_(1, self.n_step_adjustment): states[i] = states[i + j];
rewards[i] += self.discount ** j * rewards[i + j]; if terminals[i + j]:
break`.  The first argument counts the remaining j values, the second is the
current j; the two lists are the in-place mutated `states` and `rewards`. -/
def nStepInner {S : Type} [Inhabited S] (d : ℚ) (terminals : List Bool) (i : ℕ) :
    ℕ → ℕ → List S → List ℚ → List S × List ℚ
  | 0, _, states, rewards => (states, rewards)
  | k + 1, j, states, rewards =>
    let states1 := states.set i (states.getD (i + j) default)
    let rewards1 := rewards.set i (rewards.getD i 0 + d ^ j * rewards.getD (i + j) 0)
    if terminals.getD (i + j) false then (states1, rewards1)
    else nStepInner d terminals i k (j + 1) states1 rewards1

/-- Outer i-loop of the n-step correction (lines 289-299):
`for i in range_(len(rewards) - self.n_step_adjustment + 1): if terminals[i]:
continue; <inner loop>`.  The first argument counts the remaining i values,
the second is the current i. -/
def nStepOuter {S : Type} [Inhabited S] (d : ℚ) (n : ℕ) (terminals : List Bool) :
    ℕ → ℕ → List S → List ℚ → List S × List ℚ
  | 0, _, states, rewards => (states, rewards)
  | cnt + 1, i, states, rewards =>
    if terminals.getD i false then nStepOuter d n terminals cnt (i + 1) states rewards
    else
      let sr := nStepInner d terminals i (n - 1) 1 states rewards
      nStepOuter d n terminals cnt (i + 1) sr.1 sr.2

/-- The n-step stage of `_process_sample_if_necessary` (lines 288-304): when
`self.n_step_adjustment > 1`, run the correction loops and then truncate all
five arrays with `del arr[new_len:]` where
`new_len = len(states) - self.n_step_adjustment + 1`; otherwise leave the
arrays untouched. -/
def nStepTransform {S A : Type} [Inhabited S] (d : ℚ) (n : ℕ)
    (states : List S) (actions : List A) (rewards : List ℚ)
    (next_states : List S) (terminals : List Bool) :
    List S × List A × List ℚ × List S × List Bool :=
  if 1 < n then
    let sr := nStepOuter d n terminals (rewards.length + 1 - n) 0 states rewards
    let new_len : ℤ := (sr.1.length : ℤ) - (n : ℤ) + 1
    (pyDelFrom sr.1 new_len, pyDelFrom actions new_len, pyDelFrom sr.2 new_len,
      pyDelFrom next_states new_len, pyDelFrom terminals new_len)
  else (states, actions, rewards, next_states, terminals)

/-- Weight computation and batch assembly of `_process_sample_if_necessary`
(lines 307-331): `weights = np.ones_like(rewards)`, replaced when
`self.worker_computes_weights` by `np.abs(loss_per_item) + SMALL_NUMBER`
where the per-item loss comes from the batched `agent.update` call; the
returned dict compresses each state, and the second component is
`len(rewards)`. -/
def finishBatch {S A : Type} (cfg : RolloutConfig) (ea : EnvAgent S A)
    (states : List S) (actions : List A) (rewards : List ℚ)
    (next_states : List S) (terminals : List Bool) : SampleBatch S A × ℕ :=
  let weights : List ℚ :=
    if cfg.worker_computes_weights then
      ((((states.zip actions).zip rewards).zip next_states).zip terminals).map
        (fun x => |ea.lossFn x.1.1.1.1 x.1.1.1.2 x.1.1.2 x.1.2 x.2| + SMALL_NUMBER)
    else List.replicate rewards.length 1
  ({ states := states.map ea.compress
     actions := actions
     rewards := rewards
     terminals := terminals
     importance_weights := weights }, rewards.length)

/-- `RayWorker._process_sample_if_necessary` (lines 273-331): n-step stage
followed by weight computation, compression and batch assembly. -/
def _process_sample_if_necessary {S A : Type} [Inhabited S]
    (cfg : RolloutConfig) (ea : EnvAgent S A)
    (states : List S) (actions : List A) (rewards : List ℚ)
    (next_states : List S) (terminals : List Bool) : SampleBatch S A × ℕ :=
  let tr := nStepTransform cfg.discount cfg.n_step_adjustment states actions rewards
    next_states terminals
  finishBatch cfg ea tr.1 tr.2.1 tr.2.2.1 tr.2.2.2.1 tr.2.2.2.2

/-- Per-decision frameskip loop (lines 172-178):
`reward = 0; for _ in range_(self.worker_frameskip): next_state, step_reward,
terminal, info = self.environment.step(actions=action); env_frames += 1;
reward += step_reward; if terminal: break`.  Returns
(next_state, accumulated reward, terminal, env frames stepped). -/
def frameskipLoop {S A : Type} (ea : EnvAgent S A) (a : A) : ℕ → S → S × ℚ × Bool × ℕ
  | 0, s => (s, 0, false, 0)
  | k + 1, s =>
    if (ea.stepFn s a).2.2 then ((ea.stepFn s a).1, (ea.stepFn s a).2.1, true, 1)
    else
      ((frameskipLoop ea a k (ea.stepFn s a).1).1,
        (ea.stepFn s a).2.1 + (frameskipLoop ea a k (ea.stepFn s a).1).2.1,
        (frameskipLoop ea a k (ea.stepFn s a).1).2.2.1,
        (frameskipLoop ea a k (ea.stepFn s a).1).2.2.2 + 1)

/-- The call-local mutable variables of `execute_and_get_timesteps`
(lines 134-143) together with the worker fields the loop mutates. -/
structure LoopVars (S A : Type) where
  ws : WorkerState S
  timesteps_executed : ℕ
  episodes_executed : ℕ
  env_frames : ℕ
  states : List S
  actions : List A
  rewards : List ℚ
  terminals : List Bool

/-- The inner `while True` loop (lines 165-197).  One iteration: pick an
action, append the preprocessed state and the action, run the frameskip
loop, append reward and terminal, bump the counters, then test the episode
boundary `terminal or (0 < num_timesteps <= timesteps_executed) or
(0 < max_timesteps_per_episode <= episode_timestep)`.  On the boundary the
local episode counter and the rolling histories are updated and the loop
breaks (with `break_loop = terminal and break_on_terminal`); otherwise
`self.episodes_executed += 1` runs and the loop continues.  Returns
(vars, state, episode_reward, episode_timestep, terminal, break_loop);
`none` on fuel exhaustion (unreachable from the entry point). -/
def innerLoop {S A : Type} (ea : EnvAgent S A) (cfg : RolloutConfig)
    (num_timesteps max_timesteps_per_episode : ℕ) (break_on_terminal : Bool) :
    ℕ → LoopVars S A → S → ℚ → ℕ → Option (LoopVars S A × S × ℚ × ℕ × Bool × Bool)
  | 0, _, _, _, _ => none
  | fuel + 1, v, state, episode_reward, episode_timestep =>
    let fs := frameskipLoop ea (ea.act state) cfg.worker_frameskip state
    let v1 : LoopVars S A :=
      { v with
        states := v.states ++ [ea.preprocess state]
        actions := v.actions ++ [ea.act state]
        rewards := v.rewards ++ [fs.2.1]
        terminals := v.terminals ++ [fs.2.2.1]
        env_frames := v.env_frames + fs.2.2.2
        timesteps_executed := v.timesteps_executed + 1 }
    if fs.2.2.1 = true ∨ (0 < num_timesteps ∧ num_timesteps ≤ v1.timesteps_executed) ∨
        (0 < max_timesteps_per_episode ∧ max_timesteps_per_episode ≤ episode_timestep + 1) then
      some
        ({ v1 with
            episodes_executed := v1.episodes_executed + 1
            ws :=
              { v1.ws with
                episode_rewards := v1.ws.episode_rewards ++ [episode_reward + fs.2.1]
                episode_timesteps := v1.ws.episode_timesteps ++ [episode_timestep + 1]
                total_worker_steps := v1.ws.total_worker_steps + v1.timesteps_executed } },
          fs.1, episode_reward + fs.2.1, episode_timestep + 1, fs.2.2.1,
          fs.2.2.1 && break_on_terminal)
    else
      innerLoop ea cfg num_timesteps max_timesteps_per_episode break_on_terminal fuel
        { v1 with ws := { v1.ws with episodes_executed := v1.ws.episodes_executed + 1 } }
        fs.1 (episode_reward + fs.2.1) (episode_timestep + 1)

/-- The outer `while timesteps_executed < num_timesteps` loop
(lines 146-199).  Each iteration resets the environment (when the previous
episode ended, line 149: `if self.last_terminal is True or
episodes_executed > 0`) or resumes from the stored
`last_state` / `last_ep_reward` / `last_ep_timestep`, then runs the inner
loop; on `break_loop` it exits early.  The `carried` argument holds the
Python locals (`state`-variable aka `next_state`, `episode_reward`,
`terminal`) of the most recent inner run: they are what lines 202-220 read
after the loop, and they are unassigned when the loop body never ran
(`num_timesteps = 0`), in which case the source raises `UnboundLocalError`,
modelled as `none`. -/
def outerLoop {S A : Type} (ea : EnvAgent S A) (cfg : RolloutConfig)
    (num_timesteps max_timesteps_per_episode : ℕ) (break_on_terminal : Bool) :
    ℕ → LoopVars S A → Option (S × ℚ × Bool) → Option (LoopVars S A × S × ℚ × Bool)
  | 0, _, _ => none
  | fuel + 1, v, carried =>
    if v.timesteps_executed < num_timesteps then
      let start :=
        if v.ws.last_terminal = true ∨ 0 < v.episodes_executed then
          (({ v with ws := { v.ws with last_ep_reward := 0 } } : LoopVars S A),
            ea.resetState, (0 : ℚ), (0 : ℕ))
        else (v, v.ws.last_state, v.ws.last_ep_reward, v.ws.last_ep_timestep)
      match innerLoop ea cfg num_timesteps max_timesteps_per_episode break_on_terminal
          num_timesteps start.1 start.2.1 start.2.2.1 start.2.2.2 with
      | none => none
      | some (v2, state2, er2, _et2, terminal2, brk2) =>
        if brk2 = true then some (v2, state2, er2, terminal2)
        else
          outerLoop ea cfg num_timesteps max_timesteps_per_episode break_on_terminal fuel v2
            (some (state2, er2, terminal2))
    else
      match carried with
      | none => none
      | some (st, er, t) => some (v, st, er, t)

/-- `RayWorker.execute_and_get_timesteps` (lines 119-234).  Runs the rollout
loops, then (lines 200-221) stores `last_terminal` and `last_ep_reward`
(note: NOT `last_state` or `last_ep_timestep` - the source never reassigns
those after `__init__`), appends the per-call throughput counters, builds
`next_states` as `states[1:]` plus the final successor (zeros when
terminal, otherwise the preprocessed final state), post-processes the
sample, and returns the updated worker state together with the
`EnvironmentSample`. -/
def execute_and_get_timesteps {S A : Type} [Inhabited S] (ea : EnvAgent S A)
    (cfg : RolloutConfig) (ws : WorkerState S)
    (num_timesteps max_timesteps_per_episode : ℕ) (break_on_terminal : Bool) :
    Option (WorkerState S × EnvironmentSample S A) :=
  let v0 : LoopVars S A :=
    { ws := ws, timesteps_executed := 0, episodes_executed := 0, env_frames := 0,
      states := [], actions := [], rewards := [], terminals := [] }
  match outerLoop ea cfg num_timesteps max_timesteps_per_episode break_on_terminal
      (num_timesteps + 1) v0 none with
  | none => none
  | some (v, next_state, episode_reward, terminal) =>
    let ws1 : WorkerState S :=
      { v.ws with
        last_terminal := terminal
        last_ep_reward := episode_reward
        sample_steps := v.ws.sample_steps ++ [v.timesteps_executed]
        sample_env_frames := v.ws.sample_env_frames ++ [v.env_frames] }
    let final_state : S := if terminal then ea.zeroState else ea.preprocess next_state
    let next_states := v.states.drop 1 ++ [final_state]
    let pr := _process_sample_if_necessary cfg ea v.states v.actions v.rewards
      next_states v.terminals
    some (ws1,
      { sample_batch := pr.1, batch_size := pr.2, timesteps_executed := v.timesteps_executed })

/-- numpy `np.min` on a list: raises `ValueError` on an empty array,
modelled as `none`. -/
def npMin (l : List ℚ) : Option ℚ :=
  match l with
  | [] => none
  | x :: xs => some (xs.foldl min x)

/-- numpy `np.max` on a list: raises on an empty array, modelled as
`none`. -/
def npMax (l : List ℚ) : Option ℚ :=
  match l with
  | [] => none
  | x :: xs => some (xs.foldl max x)

/-- numpy `np.mean` on a list; on an empty array numpy produces NaN (after a
warning), modelled as `none`.  In `get_workload_statistics` the `np.min`
call is evaluated first and already raises, so the distinction never
surfaces. -/
def npMean (l : List ℚ) : Option ℚ :=
  match l with
  | [] => none
  | x :: xs => some ((x :: xs).sum / ((x :: xs).length : ℚ))

/-- The aggregate metrics dict of `get_workload_statistics`
(lines 251-271), restricted to the fields that do not divide by the
wall-clock `sample_times` (the mean ops/frames per second entries are
real-time quantities and are outside the embedding). -/
structure WorkloadStats where
  episode_timesteps : List ℕ
  episode_rewards : List ℚ
  min_episode_reward : ℚ
  max_episode_reward : ℚ
  mean_episode_reward : ℚ
  final_episode_reward : ℚ
  episodes_executed : ℕ
  worker_steps : ℕ

/-- `RayWorker.get_workload_statistics` (lines 251-271): builds the metrics
dict; `np.min(self.episode_rewards)` (and the other aggregates, plus the
`[-1]` index) fault on an empty episode history, so the call errors out
(`none`) in that case rather than returning a value. -/
def get_workload_statistics {S : Type} (ws : WorkerState S) : Option WorkloadStats :=
  match npMin ws.episode_rewards, npMax ws.episode_rewards, npMean ws.episode_rewards,
      ws.episode_rewards.getLast? with
  | some mn, some mx, some me, some fin =>
    some
      { episode_timesteps := ws.episode_timesteps
        episode_rewards := ws.episode_rewards
        min_episode_reward := mn
        max_episode_reward := mx
        mean_episode_reward := me
        final_episode_reward := fin
        episodes_executed := ws.episodes_executed
        worker_steps := ws.total_worker_steps }
  | _, _, _, _ => none

/-- A Python argument value for the executor model: an opaque atom or a
tuple of values (Python packs `*args` into a tuple). -/
inductive PyArg where
  | base : ℕ → PyArg
  | tuple : List PyArg → PyArg

/-- `RayExecutor.create_remote_workers` (ray_executor.py lines 58-68):
`return [cls.remote(args) for _ in xrange(num_actors)]`.  A Python callable
taking positional arguments is modelled as a function from the list of
passed arguments; the source passes the packed `args` tuple as ONE
positional argument (`cls.remote(args)`, not `cls.remote(*args)`), hence
the singleton list `[PyArg.tuple args]`. -/
def create_remote_workers {W : Type} (cls_remote : List PyArg → W) (num_actors : ℕ)
    (args : List PyArg) : List W :=
  (List.range num_actors).map fun _ => cls_remote [PyArg.tuple args]

/-- Concrete deterministic collaborator used for witnesses and
counterexamples: integer states, environment `step s a = (s + 1, 1, False)`
(never terminal, reward 1 per step), identity preprocessing and
compression, constant action 0, zero per-item loss. -/
def eaInc : EnvAgent ℤ ℤ :=
  { resetState := 0
    stepFn := fun s _ => (s + 1, 1, false)
    act := fun _ => 0
    preprocess := fun s => s
    lossFn := fun _ _ _ _ _ => 0
    compress := fun s => s
    zeroState := 0 }

/-- Default worker configuration for the concrete instances: frameskip 1,
n-step 1, discount 0.99, worker_computes_weights True (the source
default). -/
def cfgBase : RolloutConfig :=
  { worker_frameskip := 1, n_step_adjustment := 1, discount := 99 / 100,
    worker_computes_weights := true }

/-- Freshly constructed concrete worker state. -/
def ws0 : WorkerState ℤ := initWorkerState eaInc

/-- Claim C7 theorem.  When the configured n-step adjustment equals 1 the
correction branch is skipped entirely: the n-step stage returns the five
arrays unchanged (no reward, state or next-state alteration, no
truncation), and the output batch carries the raw trajectory (states
through the compression map only), with batch size equal to the raw
length. -/
theorem c7_nstep_identity {S A : Type} [Inhabited S] (cfg : RolloutConfig)
    (ea : EnvAgent S A) (states : List S) (actions : List A) (rewards : List ℚ)
    (next_states : List S) (terminals : List Bool)
    (hn : cfg.n_step_adjustment = 1) :
    nStepTransform cfg.discount cfg.n_step_adjustment states actions rewards
        next_states terminals = (states, actions, rewards, next_states, terminals) ∧
    (_process_sample_if_necessary cfg ea states actions rewards next_states
        terminals).1.rewards = rewards ∧
    (_process_sample_if_necessary cfg ea states actions rewards next_states
        terminals).1.actions = actions ∧
    (_process_sample_if_necessary cfg ea states actions rewards next_states
        terminals).1.terminals = terminals ∧
    (_process_sample_if_necessary cfg ea states actions rewards next_states
        terminals).1.states = states.map ea.compress ∧
    (_process_sample_if_necessary cfg ea states actions rewards next_states
        terminals).2 = rewards.length := by
  have hid : nStepTransform cfg.discount cfg.n_step_adjustment states actions rewards
      next_states terminals = (states, actions, rewards, next_states, terminals) := by
    rw [hn]
    simp [nStepTransform]
  refine ⟨hid, ?_, ?_, ?_, ?_, ?_⟩ <;>
    simp [_process_sample_if_necessary, hid, finishBatch]

/-- Claim C7 witness: concrete instantiation at n-step 1. -/
theorem c7_nstep_identity_witness :
    nStepTransform cfgBase.discount cfgBase.n_step_adjustment ([5, 6] : List ℤ)
        ([1, 2] : List ℤ) [3, 4] [6, 7] [false, true] = ([5, 6], [1, 2], [3, 4], [6, 7], [false, true]) ∧
    (_process_sample_if_necessary cfgBase eaInc ([5, 6] : List ℤ) ([1, 2] : List ℤ)
        [3, 4] [6, 7] [false, true]).1.rewards = [3, 4] ∧
    (_process_sample_if_necessary cfgBase eaInc ([5, 6] : List ℤ) ([1, 2] : List ℤ)
        [3, 4] [6, 7] [false, true]).1.actions = [1, 2] ∧
    (_process_sample_if_necessary cfgBase eaInc ([5, 6] : List ℤ) ([1, 2] : List ℤ)
        [3, 4] [6, 7] [false, true]).1.terminals = [false, true] ∧
    (_process_sample_if_necessary cfgBase eaInc ([5, 6] : List ℤ) ([1, 2] : List ℤ)
        [3, 4] [6, 7] [false, true]).1.states = ([5, 6] : List ℤ).map eaInc.compress ∧
    (_process_sample_if_necessary cfgBase eaInc ([5, 6] : List ℤ) ([1, 2] : List ℤ)
        [3, 4] [6, 7] [false, true]).2 = ([3, 4] : List ℚ).length :=
  c7_nstep_identity cfgBase eaInc [5, 6] [1, 2] [3, 4] [6, 7] [false, true] rfl

/-- Claim C8 theorem.  With an empty episode-reward history,
`get_workload_statistics` does not return a value at all: the `np.min`
aggregate on the empty array raises (modelled by the `none` result), i.e.
the worker fails loudly instead of silently reporting a zero or NaN
aggregate. -/
theorem c8_stats_empty_history_fails {S : Type} (ws : WorkerState S)
    (h : ws.episode_rewards = []) : get_workload_statistics ws = none := by
  unfold get_workload_statistics
  rw [h]
  rfl

/-- Claim C8 witness: a freshly constructed worker has an empty history and
its statistics call errors out. -/
theorem c8_stats_empty_history_fails_witness :
    get_workload_statistics ws0 = none :=
  c8_stats_empty_history_fails ws0 rfl

/-- Claim C1 evaluation (code bug).  Environment `step s = (s + 1, 1, False)`:
a 3-step call from a fresh worker walks the environment 0 → 1 → 2 → 3 and
stops mid-episode (the trajectory `[0, 1, 2]` and the recorded episode
length 3 show where it stopped), yet afterwards the stored `last_state` is
still 0 and the stored `last_ep_timestep` still 0 - the source never
reassigns them after `__init__`; only `last_ep_reward` (3, the episode's
cumulative reward) and `last_terminal` (False) are written back.
Consequently the next call, taking the documented continuation branch,
resumes the agent from state 0 (its first recorded decision state is 0),
not from state 3 where the previous call stopped. -/
theorem c1_stale_continuation_eval :
    ((execute_and_get_timesteps eaInc cfgBase ws0 3 0 false).map fun r =>
        (r.1.last_terminal, r.1.last_state, r.1.last_ep_timestep,
          r.2.sample_batch.states, r.1.episode_timesteps))
      = some (false, 0, 0, [0, 1, 2], [3]) ∧
    ((execute_and_get_timesteps eaInc cfgBase ws0 3 0 false).map fun r =>
        r.1.last_ep_reward) = some 3 ∧
    ((execute_and_get_timesteps eaInc cfgBase ws0 3 0 false).bind fun r =>
        (execute_and_get_timesteps eaInc cfgBase r.1 2 0 false).map fun r2 =>
          r2.2.sample_batch.states.head?)
      = some (some 0) := by
  refine ⟨by decide, ?_, by decide⟩
  norm_num [execute_and_get_timesteps, outerLoop, innerLoop, frameskipLoop,
    eaInc, cfgBase, ws0, initWorkerState]

/-- Claim C2 counterexample.  At the concrete input of the claim scenario
(`num_timesteps = 10`, `max_timesteps_per_episode = 0`,
`break_on_terminal = False`, frameskip 1, n-step 1, never-terminal
environment, fresh worker), the observable triple (decision points,
completed episodes newly recorded in the rolling history, stored
last_terminal) is NOT the claimed `(10, 0, False)`: reaching the
total-timestep budget triggers the episode bookkeeping block, which appends
one entry to the rolling histories. -/
theorem c2_counterexample :
    ¬ ((execute_and_get_timesteps eaInc cfgBase ws0 10 0 false).map fun r =>
        (r.2.batch_size, r.1.episode_rewards.length, r.1.last_terminal))
      = some (10, 0, false) := by
  decide

/-- Claim C3 evaluation (code bug).  n-step 2, discount 1/2, three
non-terminal transitions with states `[10, 11, 12]`, next-states
`[11, 12, 13]`, rewards `[1, 1, 1]`.  The rewards are folded as claimed
(`1 + 1/2 = 3/2`) and the arrays are truncated to length 2, but the loop
body executes `states[i] = states[i + j]` - it overwrites the CURRENT-state
array and never touches `next_states`: the output states are `[11, 12]`
(mutated) and the output next-states are `[11, 12]` (still the one-step
successors), whereas the claim requires the recorded next-state of
transition 0 to become the state two steps ahead, 12. -/
theorem c3_nstep_mutates_states_eval :
    (nStepTransform (1 / 2 : ℚ) 2 ([10, 11, 12] : List ℤ) ([20, 21, 22] : List ℤ)
        [1, 1, 1] [11, 12, 13] [false, false, false]).1 = [11, 12] ∧
    (nStepTransform (1 / 2 : ℚ) 2 ([10, 11, 12] : List ℤ) ([20, 21, 22] : List ℤ)
        [1, 1, 1] [11, 12, 13] [false, false, false]).2.1 = [20, 21] ∧
    (nStepTransform (1 / 2 : ℚ) 2 ([10, 11, 12] : List ℤ) ([20, 21, 22] : List ℤ)
        [1, 1, 1] [11, 12, 13] [false, false, false]).2.2.1 = [3 / 2, 3 / 2] ∧
    (nStepTransform (1 / 2 : ℚ) 2 ([10, 11, 12] : List ℤ) ([20, 21, 22] : List ℤ)
        [1, 1, 1] [11, 12, 13] [false, false, false]).2.2.2.1 = [11, 12] ∧
    (nStepTransform (1 / 2 : ℚ) 2 ([10, 11, 12] : List ℤ) ([20, 21, 22] : List ℤ)
        [1, 1, 1] [11, 12, 13] [false, false, false]).2.2.2.2 = [false, false] ∧
    ([11, 12] : List ℤ) ≠ [12, 13] ∧ ([11, 12] : List ℤ) ≠ [10, 11] := by
  refine ⟨by decide, by decide, ?_, by decide, by decide, by decide, by decide⟩
  norm_num [nStepTransform, nStepOuter, nStepInner, pyDelFrom, List.getD,
    Int.toNat, List.take_succ_cons, List.take]

/-- Claim C4 evaluation (code bug).  With `num_timesteps = 0` the guard of
the outer `while timesteps_executed < num_timesteps` loop is false
immediately, for every environment, configuration, worker state,
episode cap and break flag: no rollout happens at all (and the Python
source then faults reading the never-assigned local `terminal`, modelled by
the `none` result) - the documented run-until-terminal-only mode never
runs. -/
theorem c4_zero_budget_no_rollout {S A : Type} [Inhabited S] (ea : EnvAgent S A)
    (cfg : RolloutConfig) (ws : WorkerState S) (maxEp : ℕ) (br : Bool) :
    execute_and_get_timesteps ea cfg ws 0 maxEp br = none := by
  rfl

/-- Claim C6 theorem.  n-step 3, discount 9/10, five non-terminal
transitions with unit rewards: the post-processed batch has reward
`1 + 9/10 + 81/100 = 271/100 = 2.71` at index 0 and every per-field output
array truncated to length `5 - 3 + 1 = 3`. -/
theorem c6_nstep_numeric_scenario :
    ((_process_sample_if_necessary ⟨1, 3, 9 / 10, false⟩ eaInc ([0, 1, 2, 3, 4] : List ℤ)
        ([0, 0, 0, 0, 0] : List ℤ) [1, 1, 1, 1, 1] [1, 2, 3, 4, 5]
        [false, false, false, false, false]).1.rewards.getD 0 0 = 271 / 100) ∧
    ((_process_sample_if_necessary ⟨1, 3, 9 / 10, false⟩ eaInc ([0, 1, 2, 3, 4] : List ℤ)
        ([0, 0, 0, 0, 0] : List ℤ) [1, 1, 1, 1, 1] [1, 2, 3, 4, 5]
        [false, false, false, false, false]).1.states.length = 3) ∧
    ((_process_sample_if_necessary ⟨1, 3, 9 / 10, false⟩ eaInc ([0, 1, 2, 3, 4] : List ℤ)
        ([0, 0, 0, 0, 0] : List ℤ) [1, 1, 1, 1, 1] [1, 2, 3, 4, 5]
        [false, false, false, false, false]).1.actions.length = 3) ∧
    ((_process_sample_if_necessary ⟨1, 3, 9 / 10, false⟩ eaInc ([0, 1, 2, 3, 4] : List ℤ)
        ([0, 0, 0, 0, 0] : List ℤ) [1, 1, 1, 1, 1] [1, 2, 3, 4, 5]
        [false, false, false, false, false]).1.terminals.length = 3) ∧
    ((_process_sample_if_necessary ⟨1, 3, 9 / 10, false⟩ eaInc ([0, 1, 2, 3, 4] : List ℤ)
        ([0, 0, 0, 0, 0] : List ℤ) [1, 1, 1, 1, 1] [1, 2, 3, 4, 5]
        [false, false, false, false, false]).1.importance_weights.length = 3) ∧
    ((_process_sample_if_necessary ⟨1, 3, 9 / 10, false⟩ eaInc ([0, 1, 2, 3, 4] : List ℤ)
        ([0, 0, 0, 0, 0] : List ℤ) [1, 1, 1, 1, 1] [1, 2, 3, 4, 5]
        [false, false, false, false, false]).2 = 3) := by
  refine ⟨?_, by decide, by decide, by decide, by decide, by decide⟩
  norm_num [_process_sample_if_necessary, nStepTransform, nStepOuter, nStepInner,
    finishBatch, pyDelFrom, List.getD, SMALL_NUMBER, Int.toNat,
    List.take_succ_cons, List.take]

/-- Claim C9 evaluation (code bug).  Model the worker class's remote
constructor as the function recording the positional arguments it
receives.  `create_remote_workers` with count 2 and the three constructor
arguments `(base 0, base 1, base 2)` does return two workers, but each
constructor invocation receives a SINGLE positional argument - the packed
tuple - because the source calls `cls.remote(args)` instead of
`cls.remote(*args)`: each received argument list has length 1, not 3. -/
theorem c9_ctor_args_packed_eval :
    create_remote_workers (fun received => received) 2
        [PyArg.base 0, PyArg.base 1, PyArg.base 2]
      = [[PyArg.tuple [PyArg.base 0, PyArg.base 1, PyArg.base 2]],
          [PyArg.tuple [PyArg.base 0, PyArg.base 1, PyArg.base 2]]] ∧
    (create_remote_workers (fun received => received) 2
        [PyArg.base 0, PyArg.base 1, PyArg.base 2]).length = 2 ∧
    ([PyArg.tuple [PyArg.base 0, PyArg.base 1, PyArg.base 2]].length = 1 ∧
      ([PyArg.base 0, PyArg.base 1, PyArg.base 2] : List PyArg).length = 3) :=
  ⟨rfl, rfl, rfl, rfl⟩

lemma frameskipLoop_not_terminal {S A : Type} (ea : EnvAgent S A)
    (hT : ∀ s a, (ea.stepFn s a).2.2 = false) (a : A) :
    ∀ (k : ℕ) (s : S), (frameskipLoop ea a k s).2.2.1 = false := by
  intro k
  induction k with
  | zero => intro s; rfl
  | succ n ih =>
    intro s
    simp only [frameskipLoop, hT]
    simp only [Bool.false_eq_true, if_false]
    exact ih _

lemma innerLoop_no_terminal {S A : Type} (ea : EnvAgent S A) (cfg : RolloutConfig)
    (num : ℕ) (br : Bool) (hT : ∀ s a, (ea.stepFn s a).2.2 = false) :
    ∀ (fuel : ℕ) (v : LoopVars S A) (s : S) (er : ℚ) (et : ℕ),
      v.timesteps_executed < num → num - v.timesteps_executed ≤ fuel →
      ∃ v' s' er' et',
        innerLoop ea cfg num 0 br fuel v s er et = some (v', s', er', et', false, false) ∧
        v'.timesteps_executed = num ∧
        v'.states.length = v.states.length + (num - v.timesteps_executed) ∧
        v'.actions.length = v.actions.length + (num - v.timesteps_executed) ∧
        v'.rewards.length = v.rewards.length + (num - v.timesteps_executed) ∧
        v'.terminals.length = v.terminals.length + (num - v.timesteps_executed) ∧
        v'.ws.episode_rewards = v.ws.episode_rewards ++ [er'] ∧
        v'.ws.episode_timesteps = v.ws.episode_timesteps ++ [et'] ∧
        v'.ws.episodes_executed = v.ws.episodes_executed + (num - v.timesteps_executed - 1) ∧
        v'.ws.last_state = v.ws.last_state ∧
        v'.ws.last_ep_timestep = v.ws.last_ep_timestep ∧
        v'.ws.sample_steps = v.ws.sample_steps ∧
        v'.ws.sample_env_frames = v.ws.sample_env_frames := by
  intro fuel
  induction fuel with
  | zero => intro v s er et hlt hfuel; omega
  | succ fuel ih =>
    intro v s er et hlt hfuel
    have hterm := frameskipLoop_not_terminal ea hT (ea.act s) cfg.worker_frameskip s
    by_cases hb : num ≤ v.timesteps_executed + 1
    · simp only [innerLoop, hterm]
      rw [if_pos (Or.inr (Or.inl ⟨by omega, hb⟩))]
      refine ⟨_, _, _, _, rfl, ?_, ?_, ?_, ?_, ?_, ?_, ?_, ?_, ?_, ?_, ?_, ?_⟩
      · dsimp only
        omega
      · simp only [List.length_append, List.length_cons, List.length_nil]
        omega
      · simp only [List.length_append, List.length_cons, List.length_nil]
        omega
      · simp only [List.length_append, List.length_cons, List.length_nil]
        omega
      · simp only [List.length_append, List.length_cons, List.length_nil]
        omega
      · dsimp only
      · dsimp only
      · dsimp only
        omega
      · dsimp only
      · dsimp only
      · dsimp only
      · dsimp only
    · simp only [innerLoop, hterm]
      rw [if_neg (by
        intro h
        rcases h with h | h | h
        · exact absurd h (by simp)
        · omega
        · omega)]
      obtain ⟨v', s', er', et', heq, hts, hst, hac, hrw, htm, hepr, hept, hee, hls, hlt2,
          hss, hsf⟩ :=
        ih { ws := { v.ws with episodes_executed := v.ws.episodes_executed + 1 }
             timesteps_executed := v.timesteps_executed + 1
             episodes_executed := v.episodes_executed
             env_frames := v.env_frames +
               (frameskipLoop ea (ea.act s) cfg.worker_frameskip s).2.2.2
             states := v.states ++ [ea.preprocess s]
             actions := v.actions ++ [ea.act s]
             rewards := v.rewards ++ [(frameskipLoop ea (ea.act s) cfg.worker_frameskip s).2.1]
             terminals := v.terminals ++ [false] }
          (frameskipLoop ea (ea.act s) cfg.worker_frameskip s).1
          (er + (frameskipLoop ea (ea.act s) cfg.worker_frameskip s).2.1) (et + 1)
          (show v.timesteps_executed + 1 < num by omega)
          (show num - (v.timesteps_executed + 1) ≤ fuel by omega)
      refine ⟨v', s', er', et', heq, hts, ?_, ?_, ?_, ?_, ?_, ?_, ?_, ?_, ?_, ?_, ?_⟩
      · have h2 : v'.states.length
            = (v.states ++ [ea.preprocess s]).length + (num - (v.timesteps_executed + 1)) := hst
        simp only [List.length_append, List.length_cons, List.length_nil] at h2
        omega
      · have h2 : v'.actions.length
            = (v.actions ++ [ea.act s]).length + (num - (v.timesteps_executed + 1)) := hac
        simp only [List.length_append, List.length_cons, List.length_nil] at h2
        omega
      · have h2 : v'.rewards.length
            = (v.rewards ++ [(frameskipLoop ea (ea.act s) cfg.worker_frameskip s).2.1]).length
              + (num - (v.timesteps_executed + 1)) := hrw
        simp only [List.length_append, List.length_cons, List.length_nil] at h2
        omega
      · have h2 : v'.terminals.length
            = (v.terminals ++ [false]).length + (num - (v.timesteps_executed + 1)) := htm
        simp only [List.length_append, List.length_cons, List.length_nil] at h2
        omega
      · exact hepr
      · exact hept
      · have h2 : v'.ws.episodes_executed
            = v.ws.episodes_executed + 1 + (num - (v.timesteps_executed + 1) - 1) := hee
        omega
      · exact hls
      · exact hlt2
      · exact hss
      · exact hsf

lemma outerLoop_step_continue {S A : Type} (ea : EnvAgent S A) (cfg : RolloutConfig)
    (num maxEp : ℕ) (br : Bool) (fuel : ℕ) (v v2 : LoopVars S A) (c : Option (S × ℚ × Bool))
    (s2 : S) (er2 : ℚ) (et2 : ℕ) (t2 : Bool)
    (h1 : v.timesteps_executed < num)
    (hc : ¬(v.ws.last_terminal = true ∨ 0 < v.episodes_executed))
    (hres : innerLoop ea cfg num maxEp br num v v.ws.last_state v.ws.last_ep_reward
        v.ws.last_ep_timestep = some (v2, s2, er2, et2, t2, false)) :
    outerLoop ea cfg num maxEp br (fuel + 1) v c
      = outerLoop ea cfg num maxEp br fuel v2 (some (s2, er2, t2)) := by
  simp only [outerLoop]
  rw [if_pos h1, if_neg hc]
  dsimp only
  rw [hres]
  simp

lemma outerLoop_step_reset {S A : Type} (ea : EnvAgent S A) (cfg : RolloutConfig)
    (num maxEp : ℕ) (br : Bool) (fuel : ℕ) (v v2 : LoopVars S A) (c : Option (S × ℚ × Bool))
    (s2 : S) (er2 : ℚ) (et2 : ℕ) (t2 : Bool)
    (h1 : v.timesteps_executed < num)
    (hc : v.ws.last_terminal = true ∨ 0 < v.episodes_executed)
    (hres : innerLoop ea cfg num maxEp br num
        { v with ws := { v.ws with last_ep_reward := 0 } } ea.resetState 0 0
      = some (v2, s2, er2, et2, t2, false)) :
    outerLoop ea cfg num maxEp br (fuel + 1) v c
      = outerLoop ea cfg num maxEp br fuel v2 (some (s2, er2, t2)) := by
  simp only [outerLoop]
  rw [if_pos h1, if_pos hc]
  dsimp only
  rw [hres]
  simp

lemma outerLoop_exit {S A : Type} (ea : EnvAgent S A) (cfg : RolloutConfig)
    (num maxEp : ℕ) (br : Bool) (fuel : ℕ) (v : LoopVars S A)
    (st : S) (er : ℚ) (t : Bool)
    (h1 : ¬ v.timesteps_executed < num) :
    outerLoop ea cfg num maxEp br (fuel + 1) v (some (st, er, t)) = some (v, st, er, t) := by
  simp only [outerLoop]
  rw [if_neg h1]

lemma execute_no_terminal {S A : Type} [Inhabited S] (ea : EnvAgent S A)
    (cfg : RolloutConfig) (ws : WorkerState S) (num : ℕ) (br : Bool)
    (hT : ∀ s a, (ea.stepFn s a).2.2 = false) (hnum : 0 < num) :
    ∃ ws' sample,
      execute_and_get_timesteps ea cfg ws num 0 br = some (ws', sample) ∧
      ws'.episode_rewards.length = ws.episode_rewards.length + 1 ∧
      ws'.episode_timesteps.length = ws.episode_timesteps.length + 1 ∧
      ws'.episodes_executed = ws.episodes_executed + (num - 1) ∧
      ws'.last_terminal = false ∧
      ws'.last_state = ws.last_state ∧
      ws'.last_ep_timestep = ws.last_ep_timestep ∧
      sample.timesteps_executed = num ∧
      (cfg.n_step_adjustment = 1 → sample.batch_size = num) := by
  obtain ⟨k, rfl⟩ : ∃ k, num = k + 1 := ⟨num - 1, by omega⟩
  by_cases hws : ws.last_terminal = true
  · obtain ⟨v', s', er', et', heqInner, hts, hst, hac, hrw, htm, hepr, hept, hee, hls,
        hlt2, hss, hsf⟩ :=
      innerLoop_no_terminal ea cfg (k + 1) br hT (k + 1)
        { ws := { ws with last_ep_reward := 0 }, timesteps_executed := 0,
          episodes_executed := 0, env_frames := 0, states := [], actions := [],
          rewards := [], terminals := [] }
        ea.resetState 0 0 (by dsimp only; omega) (by dsimp only; omega)
    have houter : outerLoop ea cfg (k + 1) 0 br (k + 1 + 1)
        { ws := ws, timesteps_executed := 0, episodes_executed := 0, env_frames := 0,
          states := [], actions := [], rewards := [], terminals := [] } none
        = some (v', s', er', false) := by
      rw [outerLoop_step_reset ea cfg (k + 1) 0 br (k + 1) _ v' none s' er' et' false
        (by dsimp only; omega) (by dsimp only; exact Or.inl hws) heqInner]
      exact outerLoop_exit ea cfg (k + 1) 0 br k v' s' er' false (by omega)
    simp only [execute_and_get_timesteps]
    rw [houter]
    refine ⟨_, _, rfl, ?_, ?_, ?_, ?_, ?_, ?_, ?_, ?_⟩
    · dsimp only
      rw [hepr]
      simp
    · dsimp only
      rw [hept]
      simp
    · dsimp only
      rw [hee]
      dsimp only
      omega
    · rfl
    · dsimp only
      rw [hls]
    · dsimp only
      rw [hlt2]
    · dsimp only
      omega
    · intro hn1
      dsimp only
      simp only [_process_sample_if_necessary, nStepTransform, hn1]
      simp only [lt_self_iff_false, if_false, finishBatch]
      have h2 : v'.rewards.length = 0 + (k + 1 - 0) := hrw
      omega
  · obtain ⟨v', s', er', et', heqInner, hts, hst, hac, hrw, htm, hepr, hept, hee, hls,
        hlt2, hss, hsf⟩ :=
      innerLoop_no_terminal ea cfg (k + 1) br hT (k + 1)
        { ws := ws, timesteps_executed := 0, episodes_executed := 0, env_frames := 0,
          states := [], actions := [], rewards := [], terminals := [] }
        ws.last_state ws.last_ep_reward ws.last_ep_timestep
        (by dsimp only; omega) (by dsimp only; omega)
    have houter : outerLoop ea cfg (k + 1) 0 br (k + 1 + 1)
        { ws := ws, timesteps_executed := 0, episodes_executed := 0, env_frames := 0,
          states := [], actions := [], rewards := [], terminals := [] } none
        = some (v', s', er', false) := by
      rw [outerLoop_step_continue ea cfg (k + 1) 0 br (k + 1) _ v' none s' er' et' false
        (by dsimp only; omega)
        (by dsimp only; intro h; rcases h with h | h; exact hws h; omega) heqInner]
      exact outerLoop_exit ea cfg (k + 1) 0 br k v' s' er' false (by omega)
    simp only [execute_and_get_timesteps]
    rw [houter]
    refine ⟨_, _, rfl, ?_, ?_, ?_, ?_, ?_, ?_, ?_, ?_⟩
    · dsimp only
      rw [hepr]
      simp
    · dsimp only
      rw [hept]
      simp
    · dsimp only
      rw [hee]
      dsimp only
      omega
    · rfl
    · dsimp only
      rw [hls]
    · dsimp only
      rw [hlt2]
    · dsimp only
      omega
    · intro hn1
      dsimp only
      simp only [_process_sample_if_necessary, nStepTransform, hn1]
      simp only [lt_self_iff_false, if_false, finishBatch]
      have h2 : v'.rewards.length = 0 + (k + 1 - 0) := hrw
      omega

/-- Claim C2 amended theorem.  A call
`execute_and_get_timesteps(num_timesteps = 10, max_timesteps_per_episode = 0,
break_on_terminal = False)` on a worker with frameskip 1 and n-step 1 whose
environment never emits a terminal returns a sample with exactly 10 decision
points, appends exactly ONE entry to each rolling episode history (the
total-timestep budget is an episode-end condition that triggers the episode
bookkeeping), and leaves the stored last_terminal flag False. -/
theorem c2_budget_rollout {S A : Type} [Inhabited S] (ea : EnvAgent S A)
    (cfg : RolloutConfig) (ws : WorkerState S)
    (res : WorkerState S × EnvironmentSample S A)
    (hT : ∀ s a, (ea.stepFn s a).2.2 = false)
    (hfs : cfg.worker_frameskip = 1) (hn : cfg.n_step_adjustment = 1)
    (h : execute_and_get_timesteps ea cfg ws 10 0 false = some res) :
    res.2.batch_size = 10 ∧
    res.2.timesteps_executed = 10 ∧
    res.1.episode_rewards.length = ws.episode_rewards.length + 1 ∧
    res.1.episode_timesteps.length = ws.episode_timesteps.length + 1 ∧
    res.1.last_terminal = false := by
  obtain ⟨ws', sample, heq, h1, h2, h3, h4, h5, h6, h7, h8⟩ :=
    execute_no_terminal ea cfg ws 10 false hT (by omega)
  rw [h] at heq
  obtain rfl : res = (ws', sample) := Option.some.inj heq
  exact ⟨h8 hn, h7, h1, h2, h4⟩

def c2res : WorkerState ℤ × EnvironmentSample ℤ ℤ :=
  (execute_and_get_timesteps eaInc cfgBase ws0 10 0 false).getD default

/-- Claim C2 amended witness: the concrete never-terminal increment
environment at the scenario input. -/
theorem c2_budget_rollout_witness :
    c2res.2.batch_size = 10 ∧
    c2res.2.timesteps_executed = 10 ∧
    c2res.1.episode_rewards.length = ws0.episode_rewards.length + 1 ∧
    c2res.1.episode_timesteps.length = ws0.episode_timesteps.length + 1 ∧
    c2res.1.last_terminal = false :=
  c2_budget_rollout eaInc cfgBase ws0 c2res (fun _ _ => rfl) rfl rfl (by rfl)

/-- Claim C10 theorem.  The worker's cumulative `episodes_executed` counter
is incremented once per decision point that does NOT trigger an episode
boundary (line 197 sits after the boundary `break`), and is not incremented
inside the boundary block (which bumps only the call-local counter): for a
call of `num` decision points over a never-terminal environment with no
per-episode cap - whose only boundary is the budget boundary at its final
step - the counter grows by `num - 1`, and in particular not by 1 when
`num > 2`. -/
theorem c10_episodes_counter {S A : Type} [Inhabited S] (ea : EnvAgent S A)
    (cfg : RolloutConfig) (ws : WorkerState S) (num : ℕ) (br : Bool)
    (res : WorkerState S × EnvironmentSample S A)
    (hT : ∀ s a, (ea.stepFn s a).2.2 = false) (hnum : 0 < num)
    (h : execute_and_get_timesteps ea cfg ws num 0 br = some res) :
    res.1.episodes_executed = ws.episodes_executed + (num - 1) ∧
    res.2.timesteps_executed = num ∧
    (2 < num → res.1.episodes_executed ≠ ws.episodes_executed + 1) := by
  obtain ⟨ws', sample, heq, h1, h2, h3, h4, h5, h6, h7, h8⟩ :=
    execute_no_terminal ea cfg ws num br hT hnum
  rw [h] at heq
  obtain rfl : res = (ws', sample) := Option.some.inj heq
  exact ⟨h3, h7, fun hgt => by dsimp only; omega⟩

def c10res : WorkerState ℤ × EnvironmentSample ℤ ℤ :=
  (execute_and_get_timesteps eaInc cfgBase ws0 5 0 false).getD default

/-- Claim C10 witness: a 5-step call on the concrete increment environment
raises the counter by 4. -/
theorem c10_episodes_counter_witness :
    c10res.1.episodes_executed = ws0.episodes_executed + (5 - 1) ∧
    c10res.2.timesteps_executed = 5 ∧
    (2 < 5 → c10res.1.episodes_executed ≠ ws0.episodes_executed + 1) :=
  c10_episodes_counter eaInc cfgBase ws0 5 false c10res (fun _ _ => rfl) (by decide) (by rfl)

/-- The four trajectory arrays built by the rollout loop stay the same
length (one append per decision point). -/
def listsAligned {S A : Type} (v : LoopVars S A) : Prop :=
  v.states.length = v.actions.length ∧ v.states.length = v.rewards.length ∧
    v.states.length = v.terminals.length

lemma innerLoop_aligned {S A : Type} (ea : EnvAgent S A) (cfg : RolloutConfig)
    (num maxEp : ℕ) (br : Bool) :
    ∀ (fuel : ℕ) (v : LoopVars S A) (s : S) (er : ℚ) (et : ℕ)
      (v2 : LoopVars S A) (s2 : S) (er2 : ℚ) (et2 : ℕ) (t2 brk2 : Bool),
      listsAligned v →
      innerLoop ea cfg num maxEp br fuel v s er et = some (v2, s2, er2, et2, t2, brk2) →
      listsAligned v2 ∧ v.states.length < v2.states.length := by
  intro fuel
  induction fuel with
  | zero =>
    intro v s er et v2 s2 er2 et2 t2 brk2 _ h
    simp [innerLoop] at h
  | succ fuel ih =>
    intro v s er et v2 s2 er2 et2 t2 brk2 hal h
    obtain ⟨ha1, ha2, ha3⟩ := hal
    simp only [innerLoop] at h
    split at h
    · simp only [Option.some.injEq, Prod.mk.injEq] at h
      obtain ⟨rfl, rfl, rfl, rfl, rfl, rfl⟩ := h
      refine ⟨⟨?_, ?_, ?_⟩, ?_⟩ <;>
        simp only [List.length_append, List.length_cons, List.length_nil] <;> omega
    · have h2 := ih _ _ _ _ _ _ _ _ _ _
        (⟨by simp only [List.length_append, List.length_cons, List.length_nil]; omega,
          by simp only [List.length_append, List.length_cons, List.length_nil]; omega,
          by simp only [List.length_append, List.length_cons, List.length_nil]; omega⟩ :
          listsAligned _) h
      refine ⟨h2.1, ?_⟩
      have h3 := h2.2
      simp only [List.length_append, List.length_cons, List.length_nil] at h3
      omega

lemma outerLoop_aligned {S A : Type} (ea : EnvAgent S A) (cfg : RolloutConfig)
    (num maxEp : ℕ) (br : Bool) :
    ∀ (fuel : ℕ) (v : LoopVars S A) (c : Option (S × ℚ × Bool))
      (v2 : LoopVars S A) (st : S) (er : ℚ) (t : Bool),
      listsAligned v →
      (c ≠ none → 0 < v.states.length) →
      outerLoop ea cfg num maxEp br fuel v c = some (v2, st, er, t) →
      listsAligned v2 ∧ 0 < v2.states.length := by
  intro fuel
  induction fuel with
  | zero =>
    intro v c v2 st er t _ _ h
    simp [outerLoop] at h
  | succ fuel ih =>
    intro v c v2 st er t hal hc h
    simp only [outerLoop] at h
    split at h
    · by_cases hb : (v.ws.last_terminal = true ∨ 0 < v.episodes_executed)
      · rw [if_pos hb] at h
        dsimp only at h
        cases hinner : innerLoop ea cfg num maxEp br num
            { v with ws := { v.ws with last_ep_reward := 0 } } ea.resetState 0 0 with
        | none => rw [hinner] at h; exact absurd h (by simp)
        | some tup =>
          rw [hinner] at h
          obtain ⟨v3, s3, er3, et3, t3, brk3⟩ := tup
          have hin := innerLoop_aligned ea cfg num maxEp br num
            { v with ws := { v.ws with last_ep_reward := 0 } } ea.resetState 0 0
            v3 s3 er3 et3 t3 brk3 hal hinner
          dsimp only at h
          split at h
          · simp only [Option.some.injEq, Prod.mk.injEq] at h
            obtain ⟨rfl, rfl, rfl, rfl⟩ := h
            exact ⟨hin.1, by have h9 := hin.2; omega⟩
          · exact ih _ _ _ _ _ _ hin.1 (fun _ => by have h9 := hin.2; omega) h
      · rw [if_neg hb] at h
        dsimp only at h
        cases hinner : innerLoop ea cfg num maxEp br num v v.ws.last_state
            v.ws.last_ep_reward v.ws.last_ep_timestep with
        | none => rw [hinner] at h; exact absurd h (by simp)
        | some tup =>
          rw [hinner] at h
          obtain ⟨v3, s3, er3, et3, t3, brk3⟩ := tup
          have hin := innerLoop_aligned ea cfg num maxEp br num v v.ws.last_state
            v.ws.last_ep_reward v.ws.last_ep_timestep v3 s3 er3 et3 t3 brk3 hal hinner
          dsimp only at h
          split at h
          · simp only [Option.some.injEq, Prod.mk.injEq] at h
            obtain ⟨rfl, rfl, rfl, rfl⟩ := h
            exact ⟨hin.1, by have h9 := hin.2; omega⟩
          · exact ih _ _ _ _ _ _ hin.1 (fun _ => by have h9 := hin.2; omega) h
    · cases c with
      | none => exact absurd h (by simp)
      | some p =>
        obtain ⟨st0, er0, t0⟩ := p
        dsimp only at h
        simp only [Option.some.injEq, Prod.mk.injEq] at h
        obtain ⟨rfl, rfl, rfl, rfl⟩ := h
        exact ⟨hal, hc (by simp)⟩

lemma nStepInner_lengths {S : Type} [Inhabited S] (d : ℚ) (tms : List Bool) (i : ℕ) :
    ∀ (k j : ℕ) (st : List S) (rw : List ℚ),
      (nStepInner d tms i k j st rw).1.length = st.length ∧
        (nStepInner d tms i k j st rw).2.length = rw.length := by
  intro k
  induction k with
  | zero => intro j st rw; exact ⟨rfl, rfl⟩
  | succ k ih =>
    intro j st rw
    simp only [nStepInner]
    split
    · simp [List.length_set]
    · have h2 := ih (j + 1) (st.set i (st.getD (i + j) default))
        (rw.set i (rw.getD i 0 + d ^ j * rw.getD (i + j) 0))
      simpa [List.length_set] using h2

lemma nStepOuter_lengths {S : Type} [Inhabited S] (d : ℚ) (n : ℕ) (tms : List Bool) :
    ∀ (cnt i : ℕ) (st : List S) (rw : List ℚ),
      (nStepOuter d n tms cnt i st rw).1.length = st.length ∧
        (nStepOuter d n tms cnt i st rw).2.length = rw.length := by
  intro cnt
  induction cnt with
  | zero => intro i st rw; exact ⟨rfl, rfl⟩
  | succ cnt ih =>
    intro i st rw
    simp only [nStepOuter]
    split
    · exact ih (i + 1) st rw
    · have h1 := nStepInner_lengths d tms i (n - 1) 1 st rw
      have h2 := ih (i + 1) (nStepInner d tms i (n - 1) 1 st rw).1
        (nStepInner d tms i (n - 1) 1 st rw).2
      exact ⟨h2.1.trans h1.1, h2.2.trans h1.2⟩

lemma pyDelFrom_length_congr {α β : Type} (l1 : List α) (l2 : List β) (k : ℤ)
    (h : l1.length = l2.length) :
    (pyDelFrom l1 k).length = (pyDelFrom l2 k).length := by
  simp [pyDelFrom, List.length_take, h]

lemma finishBatch_lengths {S A : Type} (cfg : RolloutConfig) (ea : EnvAgent S A)
    (st : List S) (ac : List A) (rw : List ℚ) (ns : List S) (tm : List Bool)
    (hac : st.length = ac.length) (hrw : st.length = rw.length)
    (hns : st.length = ns.length) (htm : st.length = tm.length) :
    (finishBatch cfg ea st ac rw ns tm).1.states.length = (finishBatch cfg ea st ac rw ns tm).2 ∧
    (finishBatch cfg ea st ac rw ns tm).1.actions.length = (finishBatch cfg ea st ac rw ns tm).2 ∧
    (finishBatch cfg ea st ac rw ns tm).1.rewards.length = (finishBatch cfg ea st ac rw ns tm).2 ∧
    (finishBatch cfg ea st ac rw ns tm).1.terminals.length = (finishBatch cfg ea st ac rw ns tm).2 ∧
    (finishBatch cfg ea st ac rw ns tm).1.importance_weights.length
      = (finishBatch cfg ea st ac rw ns tm).2 := by
  simp only [finishBatch]
  refine ⟨?_, ?_, ?_, ?_, ?_⟩
  · simp only [List.length_map]
    omega
  · show ac.length = rw.length
    omega
  · trivial
  · show tm.length = rw.length
    omega
  · split
    · simp only [List.length_map, List.length_zip]
      omega
    · simp only [List.length_replicate]

lemma nStepTransform_aligned {S A : Type} [Inhabited S] (d : ℚ) (n : ℕ)
    (st : List S) (ac : List A) (rw : List ℚ) (ns : List S) (tm : List Bool)
    (hac : st.length = ac.length) (hrw : st.length = rw.length)
    (hns : st.length = ns.length) (htm : st.length = tm.length)
    (t1 : List S) (t2 : List A) (t3 : List ℚ) (t4 : List S) (t5 : List Bool)
    (h : nStepTransform d n st ac rw ns tm = (t1, t2, t3, t4, t5)) :
    t1.length = t2.length ∧ t1.length = t3.length ∧ t1.length = t4.length ∧
      t1.length = t5.length := by
  simp only [nStepTransform] at h
  split at h
  · simp only [Prod.mk.injEq] at h
    obtain ⟨rfl, rfl, rfl, rfl, rfl⟩ := h
    have hsr := nStepOuter_lengths d n tm (rw.length + 1 - n) 0 st rw
    refine ⟨?_, ?_, ?_, ?_⟩ <;> apply pyDelFrom_length_congr <;> omega
  · simp only [Prod.mk.injEq] at h
    obtain ⟨rfl, rfl, rfl, rfl, rfl⟩ := h
    exact ⟨hac, hrw, hns, htm⟩

lemma process_lengths {S A : Type} [Inhabited S] (cfg : RolloutConfig) (ea : EnvAgent S A)
    (st : List S) (ac : List A) (rw : List ℚ) (ns : List S) (tm : List Bool)
    (hac : st.length = ac.length) (hrw : st.length = rw.length)
    (hns : st.length = ns.length) (htm : st.length = tm.length) :
    (_process_sample_if_necessary cfg ea st ac rw ns tm).1.states.length
      = (_process_sample_if_necessary cfg ea st ac rw ns tm).2 ∧
    (_process_sample_if_necessary cfg ea st ac rw ns tm).1.actions.length
      = (_process_sample_if_necessary cfg ea st ac rw ns tm).2 ∧
    (_process_sample_if_necessary cfg ea st ac rw ns tm).1.rewards.length
      = (_process_sample_if_necessary cfg ea st ac rw ns tm).2 ∧
    (_process_sample_if_necessary cfg ea st ac rw ns tm).1.terminals.length
      = (_process_sample_if_necessary cfg ea st ac rw ns tm).2 ∧
    (_process_sample_if_necessary cfg ea st ac rw ns tm).1.importance_weights.length
      = (_process_sample_if_necessary cfg ea st ac rw ns tm).2 := by
  rcases h15 : nStepTransform cfg.discount cfg.n_step_adjustment st ac rw ns tm with
    ⟨t1, t2, t3, t4, t5⟩
  obtain ⟨g1, g2, g3, g4⟩ := nStepTransform_aligned cfg.discount cfg.n_step_adjustment
    st ac rw ns tm hac hrw hns htm t1 t2 t3 t4 t5 h15
  simp only [_process_sample_if_necessary, h15]
  exact finishBatch_lengths cfg ea t1 t2 t3 t4 t5 g1 g2 g3 g4

/-- Claim C5 theorem.  Every sample produced by a completed
`execute_and_get_timesteps` call - for any environment/agent, configuration
(frameskip, n-step adjustment, weight flag), worker state, budget, episode
cap and break flag - has per-field arrays of one common length:
states, actions, rewards, terminals and importance_weights all have length
equal to the batch size reported alongside the batch. -/
theorem c5_batch_field_lengths {S A : Type} [Inhabited S] (ea : EnvAgent S A)
    (cfg : RolloutConfig) (ws : WorkerState S) (num maxEp : ℕ) (br : Bool)
    (res : WorkerState S × EnvironmentSample S A)
    (h : execute_and_get_timesteps ea cfg ws num maxEp br = some res) :
    res.2.sample_batch.states.length = res.2.batch_size ∧
    res.2.sample_batch.actions.length = res.2.batch_size ∧
    res.2.sample_batch.rewards.length = res.2.batch_size ∧
    res.2.sample_batch.terminals.length = res.2.batch_size ∧
    res.2.sample_batch.importance_weights.length = res.2.batch_size := by
  simp only [execute_and_get_timesteps] at h
  cases houter : outerLoop ea cfg num maxEp br (num + 1)
      { ws := ws, timesteps_executed := 0, episodes_executed := 0, env_frames := 0,
        states := [], actions := [], rewards := [], terminals := [] } none with
  | none =>
    rw [houter] at h
    exact absurd h (by simp)
  | some out =>
    obtain ⟨v, nst, er, t⟩ := out
    rw [houter] at h
    dsimp only at h
    obtain ⟨⟨g1, g2, g3⟩, gpos⟩ := outerLoop_aligned ea cfg num maxEp br (num + 1)
      { ws := ws, timesteps_executed := 0, episodes_executed := 0, env_frames := 0,
        states := [], actions := [], rewards := [], terminals := [] } none v nst er t
      ⟨rfl, rfl, rfl⟩ (fun hc => absurd rfl hc) houter
    have hns : v.states.length
        = (v.states.drop 1 ++ [if t = true then ea.zeroState else ea.preprocess nst]).length := by
      simp only [List.length_append, List.length_drop, List.length_cons, List.length_nil]
      omega
    obtain ⟨p1, p2, p3, p4, p5⟩ := process_lengths cfg ea v.states v.actions v.rewards
      (v.states.drop 1 ++ [if t = true then ea.zeroState else ea.preprocess nst]) v.terminals
      g1 g2 hns g3
    obtain rfl := Option.some.inj h
    exact ⟨p1, p2, p3, p4, p5⟩

def c5res : WorkerState ℤ × EnvironmentSample ℤ ℤ :=
  (execute_and_get_timesteps eaInc cfgBase ws0 3 0 false).getD default

/-- Claim C5 witness: the concrete 3-step rollout's batch fields all have
length equal to its batch size. -/
theorem c5_batch_field_lengths_witness :
    c5res.2.sample_batch.states.length = c5res.2.batch_size ∧
    c5res.2.sample_batch.actions.length = c5res.2.batch_size ∧
    c5res.2.sample_batch.rewards.length = c5res.2.batch_size ∧
    c5res.2.sample_batch.terminals.length = c5res.2.batch_size ∧
    c5res.2.sample_batch.importance_weights.length = c5res.2.batch_size :=
  c5_batch_field_lengths eaInc cfgBase ws0 3 0 false c5res (by rfl)
